import Mathlib

/-!
Verification of the Email AI Assistant frontend (the React component `App`).

The repository holds two variants of the same single-file component:
`src/App.tsx` (the later, styled variant) and an earlier unnamed variant.
Both are embedded below.  React `useState` cells become the fields of
`AppState`; each event handler becomes a function from the pre-state and
the outcomes of the network requests it awaits to the post-state together
with the list of requests it issued (in issue order).  A rejected fetch
and an unparseable body are observationally identical in the source (both
reach the `catch` block), so each response is modelled as an `Option` of
its parsed shape.  `setTimeout(..., 800)` is modelled as an `Option Nat`
carrying the scheduled delay.
-/

namespace EmailAssistant

/-- Email record produced by the external analysis service
(`EmailItem` in both variants).  `fromField` embeds the `from` field,
which is a keyword in Lean. -/
structure EmailItem where
  id : Int
  subject : Option String
  fromField : Option String
  content : String
  summary : String
  urgency : String
  intent : Option String
  reason : String
  actions : Option (List String)
deriving DecidableEq

/-- Sent-item record mirrored from the external outbox service (`SentItem`). -/
structure SentItem where
  email_id : Int
  intent : String
  draft : String
  status : String
  sent_at : String
deriving DecidableEq

/-- Follow-up suggestion returned by the analysis endpoint (`FollowUp`). -/
structure FollowUp where
  normal_emails_count : Int
  suggested_time : String
  message : String
deriving DecidableEq

/-- The component state: one field per `useState` cell of `App`.
`lastAnalyzedText` exists only in the later variant; for the earlier
variant it is simply never read or written. -/
structure AppState where
  rawText : String
  emails : List EmailItem
  loading : Bool
  error : Option String
  modalOpen : Bool
  approveStatus : Option String
  modalDraft : String
  modalEmailId : Option Int
  modalLoading : Bool
  followUp : Option FollowUp
  sentLog : List SentItem
  sentLogOpen : Bool
  sentLogLoading : Bool
  sentJustNow : Bool
  lastAnalyzedText : String
deriving DecidableEq

/-- The initial state of every `useState` cell of `App`. -/
def initialState : AppState :=
  { rawText := ""
    emails := []
    loading := false
    error := none
    modalOpen := false
    approveStatus := none
    modalDraft := ""
    modalEmailId := none
    modalLoading := false
    followUp := none
    sentLog := []
    sentLogOpen := false
    sentLogLoading := false
    sentJustNow := false
    lastAnalyzedText := "" }

/-- Network requests the component can issue, one constructor per endpoint,
carrying the request body fields the component sends. -/
inductive Req where
  | clearSent
  | demo
  | analyze (raw_text : String)
  | sentList
  | suggest (email_content : String) (urgency : String) (intent : Option String)
  | approve (email_id : Int) (intent : String) (draft : String)
deriving DecidableEq

/-- Bucket of the emails whose urgency is exactly "urgent"
(`emails.filter((e) => e.urgency === "urgent")`, identical in both variants). -/
def urgentEmails (st : AppState) : List EmailItem :=
  st.emails.filter (fun e => e.urgency == "urgent")

/-- Bucket of the emails whose urgency is exactly "normal". -/
def normalEmails (st : AppState) : List EmailItem :=
  st.emails.filter (fun e => e.urgency == "normal")

/-- Bucket of the emails whose urgency is exactly "low". -/
def lowEmails (st : AppState) : List EmailItem :=
  st.emails.filter (fun e => e.urgency == "low")

/-- Character class of the regex `/\n{2,}/` (and of the single newline the
replacement leaves in place). -/
def isNewline (c : Char) : Bool := c == '\n'

/-- Character class of the regex `/[ \t]+/`. -/
def isSpaceTab (c : Char) : Bool := c == ' ' || c == '\t'

/-- Whitespace recognised by JavaScript `String.prototype.trim`
(WhiteSpace and LineTerminator code points). -/
def jsWhitespace (c : Char) : Bool :=
  c == ' ' || c == '\t' || c == '\n' || c == '\u000B' || c == '\u000C' ||
  c == '\r' || c == '\u00A0' || c == '\u1680' ||
  (decide ('\u2000' ≤ c) && decide (c ≤ '\u200A')) ||
  c == '\u2028' || c == '\u2029' || c == '\u202F' || c == '\u205F' ||
  c == '\u3000' || c == '\uFEFF'

/-- One global-regex replacement pass: every maximal run of characters
satisfying `p` is replaced by the single character `rep`.  The Boolean flag
records whether the previous input character belonged to a run.  With
`p := isNewline, rep := '\n'` this is `.replace(/\n{2,}/g, "\n")` (a lone
newline is not matched by the regex but is re-emitted unchanged, which
coincides with emitting `rep`); with `p := isSpaceTab, rep := ' '` it is
`.replace(/[ \t]+/g, " ")`. -/
def collapseRuns (p : Char → Bool) (rep : Char) : Bool → List Char → List Char
  | _, [] => []
  | true, c :: cs =>
      if p c then collapseRuns p rep true cs
      else c :: collapseRuns p rep false cs
  | false, c :: cs =>
      if p c then rep :: collapseRuns p rep true cs
      else c :: collapseRuns p rep false cs

/-- JavaScript `.trim()` on a character list: drop whitespace from both ends. -/
def trimChars (l : List Char) : List Char :=
  (l.dropWhile jsWhitespace).rdropWhile jsWhitespace

/-- Core of `cleanFormatting` (identical in both variants): collapse newline
runs, then collapse space/tab runs, then trim. -/
def cleanChars (l : List Char) : List Char :=
  trimChars (collapseRuns isSpaceTab ' ' false (collapseRuns isNewline '\n' false l))

/-- The pure text transform applied by the `cleanFormatting` handler to
`rawText`. -/
def cleanFormatting (s : String) : String :=
  String.mk (cleanChars s.data)

/-- JavaScript `String.prototype.trim`. -/
def jsTrim (s : String) : String :=
  String.mk (trimChars s.data)

/-- Parsed body of a successful analyze response: the `emails` array and the
optional `follow_up` object (`data.follow_up ?? null`). -/
structure AnalyzeData where
  emails : List EmailItem
  follow_up : Option FollowUp
deriving DecidableEq

/-- Parsed body of a successful reply-suggestion response: the optional
`draft` and `message` string fields. -/
structure SuggestData where
  draft : Option String
  message : Option String
deriving DecidableEq

/-- Shared tail of `analyzeEmails` in both variants: close the outbox panel,
reset the outbox mirror, then await the analyze request inside
`try/catch/finally`; `resp = none` models a rejected fetch or an
unparseable body. -/
def analyzeCore (st : AppState) (resp : Option AnalyzeData) : AppState × List Req :=
  let st1 : AppState := { st with sentLogOpen := false, sentLog := [] }
  match resp with
  | some d =>
      ({ st1 with emails := d.emails, followUp := d.follow_up, loading := false },
       [Req.analyze st1.rawText])
  | none =>
      ({ st1 with error := some "Failed to analyze emails.", loading := false },
       [Req.analyze st1.rawText])

/-- Handler `loadSentLog` (identical in both variants).  `resp` is the parsed
`items` list on success (`data.items ?? []` makes a missing field the empty
list), `none` on rejection or parse failure. -/
def loadSentLog (st : AppState) (resp : Option (List SentItem)) : AppState × List Req :=
  let st1 : AppState := { st with sentLogLoading := true, error := none }
  match resp with
  | some items =>
      ({ st1 with sentLog := items, sentLogOpen := true, sentLogLoading := false },
       [Req.sentList])
  | none =>
      ({ st1 with error := some "Failed to load sent log.", sentLogLoading := false },
       [Req.sentList])

/-- Handler `suggestReply` (identical in both variants).  The source tests
`if (data.draft)`, i.e. JavaScript truthiness of the draft string, so a
present-but-empty draft falls through to `data.message ?? "No draft
available."`. -/
def suggestReply (st : AppState) (email : EmailItem) (resp : Option SuggestData) :
    AppState × List Req :=
  let st1 : AppState :=
    { st with
      modalOpen := true
      approveStatus := none
      sentJustNow := false
      modalEmailId := some email.id
      modalDraft := ""
      modalLoading := true
      error := none }
  match resp with
  | some d =>
      let draftText :=
        match d.draft with
        | some t => if t = "" then d.message.getD "No draft available." else t
        | none => d.message.getD "No draft available."
      ({ st1 with modalDraft := draftText, modalLoading := false },
       [Req.suggest email.content email.urgency email.intent])
  | none =>
      ({ st1 with modalDraft := "Failed to get reply suggestion.", modalLoading := false },
       [Req.suggest email.content email.urgency email.intent])

namespace Later

/-- Handler `analyzeEmails` of the later variant (`src/App.tsx`).
`clearOk = false` models the preliminary `/emails/sent/clear` request either
rejecting or resolving with a non-OK status: in the source that `throw new
Error("Clear failed")` (and the rejection itself) happen outside any
`try`, so the handler terminates by an uncaught exception with the state as
updated so far (`loading` already set).  The returned list records the
requests issued, in order. -/
def analyzeEmails (st : AppState) (clearOk : Bool) (resp : Option AnalyzeData) :
    AppState × List Req :=
  if st.rawText ≠ st.lastAnalyzedText then
    if clearOk then
      ((analyzeCore { st with loading := true, error := none, sentLog := [], lastAnalyzedText := st.rawText } resp).1,
       Req.clearSent :: (analyzeCore { st with loading := true, error := none, sentLog := [], lastAnalyzedText := st.rawText } resp).2)
    else ({ st with loading := true, error := none }, [Req.clearSent])
  else analyzeCore { st with loading := true, error := none } resp

/-- Handler `approveAndSend` of the later variant.  `resp = some msg` models
a resolved approve request whose parsed body has `message = msg`
(`data.message ?? "Marked as sent (simulated).")`; `resp = none` models
rejection or parse failure.  `sentResp` is consumed only when the success
path refreshes the open outbox panel via `loadSentLog`.  The `Option Nat`
component is the delay of the scheduled `setTimeout(() => setModalOpen
(false), 800)`, if any. -/
def approveAndSend (st : AppState) (resp : Option (Option String))
    (sentResp : Option (List SentItem)) : AppState × List Req × Option Nat :=
  match st.modalEmailId with
  | none => (st, [], none)
  | some mid =>
      let st1 : AppState := { st with approveStatus := some "Sending..." }
      let intent := ((st1.emails.find? (fun e => e.id == mid)).bind EmailItem.intent).getD "default"
      let req := Req.approve mid intent st1.modalDraft
      match resp with
      | none => ({ st1 with approveStatus := some "Failed to approve/send." }, [req], none)
      | some msg =>
          let st2 : AppState :=
            { st1 with
              approveStatus := some (msg.getD "Marked as sent (simulated).")
              emails := st1.emails.filter (fun e => !(e.id == mid))
              sentJustNow := true }
          if st2.sentLogOpen then
            let r := loadSentLog st2 sentResp
            (r.1, req :: r.2, some 800)
          else (st2, [req], some 800)

end Later

namespace Early

/-- Handler `analyzeEmails` of the earlier variant: a guard rejects
empty/whitespace-only input (`if (!rawText.trim())`) before any request is
sent; otherwise it proceeds exactly as the shared core. -/
def analyzeEmails (st : AppState) (resp : Option AnalyzeData) : AppState × List Req :=
  if jsTrim st.rawText = "" then
    ({ st with error := some "Please paste emails or load demo data." }, [])
  else
    analyzeCore { st with loading := true, error := none } resp

end Early

/-- Disabled condition of the Approve and-send button:
`modalLoading || !modalDraft.trim() || sentJustNow`. -/
def approveDisabled (st : AppState) : Bool :=
  st.modalLoading || jsTrim st.modalDraft == "" || st.sentJustNow

/-- Sample email used to instantiate theorems at concrete inputs. -/
def sampleEmail : EmailItem :=
  { id := 1, subject := none, fromField := none, content := "c", summary := "s",
    urgency := "urgent", intent := none, reason := "r", actions := none }

/-- No two adjacent characters of the list both satisfy `p`. -/
def NoRun (p : Char → Bool) (l : List Char) : Prop :=
  l.Chain' (fun a b => p a = true → p b = false)

theorem noRun_tail {p : Char → Bool} {a : Char} {l : List Char}
    (h : NoRun p (a :: l)) : NoRun p l :=
  List.Chain'.tail h

theorem noRun_cons {p : Char → Bool} {a : Char} {l : List Char} :
    NoRun p (a :: l) ↔ (∀ y ∈ l.head?, p a = true → p y = false) ∧ NoRun p l :=
  List.chain'_cons'

theorem collapseRuns_nil (p : Char → Bool) (rep : Char) (b : Bool) :
    collapseRuns p rep b [] = [] := by
  cases b <;> rfl

theorem collapseRuns_true_cons (p : Char → Bool) (rep : Char) (c : Char) (cs : List Char) :
    collapseRuns p rep true (c :: cs) =
      if p c then collapseRuns p rep true cs
      else c :: collapseRuns p rep false cs := rfl

theorem collapseRuns_false_cons (p : Char → Bool) (rep : Char) (c : Char) (cs : List Char) :
    collapseRuns p rep false (c :: cs) =
      if p c then rep :: collapseRuns p rep true cs
      else c :: collapseRuns p rep false cs := rfl

/-- Every character of the output that satisfies `p` is the replacement
character. -/
theorem collapseRuns_mem_rep (p : Char → Bool) (rep : Char) :
    ∀ (l : List Char) (b : Bool) (c : Char),
      c ∈ collapseRuns p rep b l → p c = true → c = rep := by
  intro l
  induction l with
  | nil =>
    intro b c hc
    rw [collapseRuns_nil] at hc
    cases hc
  | cons a cs ih =>
    intro b c hc hp
    cases b with
    | true =>
      rw [collapseRuns_true_cons] at hc
      cases hpa : p a with
      | true =>
        rw [if_pos hpa] at hc
        exact ih true c hc hp
      | false =>
        rw [if_neg (by simp [hpa])] at hc
        rcases List.mem_cons.1 hc with h | h
        · subst h; rw [hp] at hpa; cases hpa
        · exact ih false c h hp
    | false =>
      rw [collapseRuns_false_cons] at hc
      cases hpa : p a with
      | true =>
        rw [if_pos hpa] at hc
        rcases List.mem_cons.1 hc with h | h
        · exact h
        · exact ih true c h hp
      | false =>
        rw [if_neg (by simp [hpa])] at hc
        rcases List.mem_cons.1 hc with h | h
        · subst h; rw [hp] at hpa; cases hpa
        · exact ih false c h hp

/-- Inside a run, the next emitted character never satisfies `p`. -/
theorem collapseRuns_head_true (p : Char → Bool) (rep : Char) :
    ∀ (l : List Char) (c : Char),
      (collapseRuns p rep true l).head? = some c → p c = false := by
  intro l
  induction l with
  | nil =>
    intro c hc
    rw [collapseRuns_nil] at hc
    cases hc
  | cons a cs ih =>
    intro c hc
    rw [collapseRuns_true_cons] at hc
    cases hpa : p a with
    | true =>
      rw [if_pos hpa] at hc
      exact ih c hc
    | false =>
      rw [if_neg (by simp [hpa]), List.head?_cons] at hc
      injection hc with h
      rw [← h]
      exact hpa

/-- The output of a collapse pass never has two adjacent characters of the
collapsed class. -/
theorem collapseRuns_noRun (p : Char → Bool) (rep : Char) :
    ∀ (l : List Char) (b : Bool), NoRun p (collapseRuns p rep b l) := by
  intro l
  induction l with
  | nil =>
    intro b
    rw [collapseRuns_nil]
    exact List.chain'_nil
  | cons a cs ih =>
    intro b
    cases b with
    | true =>
      rw [collapseRuns_true_cons]
      cases hpa : p a with
      | true =>
        rw [if_pos rfl]
        exact ih true
      | false =>
        rw [if_neg (by simp)]
        refine noRun_cons.2 ⟨?_, ih false⟩
        intro y _ hcontra
        rw [hcontra] at hpa
        cases hpa
    | false =>
      rw [collapseRuns_false_cons]
      cases hpa : p a with
      | true =>
        rw [if_pos rfl]
        refine noRun_cons.2 ⟨?_, ih true⟩
        intro y hy _
        exact collapseRuns_head_true p rep cs y (Option.mem_def.1 hy)
      | false =>
        rw [if_neg (by simp)]
        refine noRun_cons.2 ⟨?_, ih false⟩
        intro y _ hcontra
        rw [hcontra] at hpa
        cases hpa

/-- In non-run mode, an output head satisfying `q` (with the replacement
character outside `q`) is the input head. -/
theorem collapseRuns_head_other (p q : Char → Bool) (rep : Char) (hrep : q rep = false)
    {l : List Char} {c : Char}
    (h : (collapseRuns p rep false l).head? = some c) (hq : q c = true) :
    l.head? = some c := by
  cases l with
  | nil =>
    rw [collapseRuns_nil] at h
    cases h
  | cons a cs =>
    rw [collapseRuns_false_cons] at h
    cases hpa : p a with
    | true =>
      rw [if_pos hpa, List.head?_cons] at h
      injection h with h'
      rw [← h'] at hq
      rw [hrep] at hq
      cases hq
    | false =>
      rw [if_neg (by simp [hpa]), List.head?_cons] at h
      injection h with h'
      rw [List.head?_cons, h']

/-- A collapse pass for `p` preserves the absence of adjacent `q`-runs, for
any class `q` that excludes the replacement character. -/
theorem collapseRuns_noRun_other (p q : Char → Bool) (rep : Char) (hrep : q rep = false) :
    ∀ (l : List Char) (b : Bool), NoRun q l → NoRun q (collapseRuns p rep b l) := by
  intro l
  induction l with
  | nil =>
    intro b _
    rw [collapseRuns_nil]
    exact List.chain'_nil
  | cons a cs ih =>
    intro b hch
    have hcs : NoRun q cs := noRun_tail hch
    have hhead : ∀ y ∈ cs.head?, q a = true → q y = false := (noRun_cons.1 hch).1
    have hemit : ∀ y ∈ (collapseRuns p rep false cs).head?, q a = true → q y = false := by
      intro y hy hqa
      cases hqy : q y with
      | false => rfl
      | true =>
        have hmem : cs.head? = some y :=
          collapseRuns_head_other p q rep hrep (Option.mem_def.1 hy) hqy
        have := hhead y (Option.mem_def.2 hmem) hqa
        rw [hqy] at this
        cases this
    cases b with
    | true =>
      rw [collapseRuns_true_cons]
      cases hpa : p a with
      | true =>
        rw [if_pos rfl]
        exact ih true hcs
      | false =>
        rw [if_neg (by simp)]
        exact noRun_cons.2 ⟨hemit, ih false hcs⟩
    | false =>
      rw [collapseRuns_false_cons]
      cases hpa : p a with
      | true =>
        rw [if_pos rfl]
        refine noRun_cons.2 ⟨?_, ih true hcs⟩
        intro y _ hqrep
        rw [hrep] at hqrep
        cases hqrep
      | false =>
        rw [if_neg (by simp)]
        exact noRun_cons.2 ⟨hemit, ih false hcs⟩

/-- When the head of the input is not in the class, run mode is irrelevant. -/
theorem collapseRuns_skip (p : Char → Bool) (rep : Char) (l : List Char)
    (h : ∀ c, l.head? = some c → p c = false) :
    collapseRuns p rep true l = collapseRuns p rep false l := by
  cases l with
  | nil => rfl
  | cons a cs =>
    have hpa : p a = false := h a (by rw [List.head?_cons])
    have hpa' : ¬(p a = true) := by simp [hpa]
    rw [collapseRuns_true_cons, collapseRuns_false_cons, if_neg hpa', if_neg hpa']

/-- A collapse pass is the identity on lists with no adjacent run characters
whose run characters are all already the replacement character. -/
theorem collapseRuns_id (p : Char → Bool) (rep : Char) :
    ∀ l : List Char, NoRun p l → (∀ c ∈ l, p c = true → c = rep) →
      collapseRuns p rep false l = l := by
  intro l
  induction l with
  | nil => intro _ _; rfl
  | cons a cs ih =>
    intro hch hall
    have hcs : NoRun p cs := noRun_tail hch
    have hallcs : ∀ c ∈ cs, p c = true → c = rep :=
      fun c hc => hall c (List.mem_cons_of_mem a hc)
    rw [collapseRuns_false_cons]
    cases hpa : p a with
    | true =>
      rw [if_pos rfl]
      have ha : a = rep := hall a (List.mem_cons_self a cs) hpa
      have hskip : ∀ c, cs.head? = some c → p c = false := by
        intro c hc
        exact (noRun_cons.1 hch).1 c (Option.mem_def.2 hc) hpa
      rw [collapseRuns_skip p rep cs hskip, ih hcs hallcs, ha]
    | false =>
      rw [if_neg (by simp), ih hcs hallcs]

theorem dropWhile_of_head_not (p : Char → Bool) (l : List Char)
    (h : ∀ c, l.head? = some c → p c = false) : l.dropWhile p = l := by
  cases l with
  | nil => rfl
  | cons a cs =>
    have hpa : p a = false := h a (by rw [List.head?_cons])
    rw [List.dropWhile_cons, if_neg (by simp [hpa])]

/-- Dropping a leading run again after a right-trim is a no-op when the list
had no leading run to begin with. -/
theorem dropWhile_rdropWhile_self (p : Char → Bool) (l : List Char)
    (h : l.dropWhile p = l) : (l.rdropWhile p).dropWhile p = l.rdropWhile p := by
  apply dropWhile_of_head_not
  intro c hc
  obtain ⟨t, ht⟩ := List.rdropWhile_prefix p l
  cases e : l.rdropWhile p with
  | nil =>
    rw [e] at hc
    cases hc
  | cons a xs =>
    rw [e, List.head?_cons] at hc
    injection hc with hac
    rw [e] at ht
    subst hac
    subst ht
    rw [List.dropWhile_eq_self_iff] at h
    have hlen : 0 < ((a :: xs) ++ t).length := by simp
    have h0 := h hlen
    simpa using h0

theorem trimChars_idem (l : List Char) : trimChars (trimChars l) = trimChars l := by
  unfold trimChars
  rw [dropWhile_rdropWhile_self jsWhitespace _ (List.dropWhile_idempotent _ _),
    List.rdropWhile_idempotent]

theorem trimChars_infix (l : List Char) : trimChars l <:+: l := by
  have h1 : (l.dropWhile jsWhitespace).rdropWhile jsWhitespace <+: l.dropWhile jsWhitespace :=
    List.rdropWhile_prefix _ _
  have h2 : l.dropWhile jsWhitespace <:+ l := List.dropWhile_suffix _
  exact List.IsInfix.trans h1.isInfix h2.isInfix

theorem noRun_of_infix {p : Char → Bool} {l₁ l₂ : List Char}
    (h : NoRun p l₂) (hinf : l₁ <:+: l₂) : NoRun p l₁ :=
  List.Chain'.infix h hinf

/-- Cleaning the result of a clean is a no-op: the key lemma behind
idempotence, stated for any list that already satisfies the two collapse
invariants. -/
theorem cleanChars_of_collapsed (m : List Char)
    (hnl : NoRun isNewline m) (hsp : NoRun isSpaceTab m)
    (hrep : ∀ c ∈ m, isSpaceTab c = true → c = ' ') :
    cleanChars (trimChars m) = trimChars m := by
  have hinf := trimChars_infix m
  have h1 : collapseRuns isNewline '\n' false (trimChars m) = trimChars m := by
    apply collapseRuns_id
    · exact noRun_of_infix hnl hinf
    · intro c _ hc
      simpa [isNewline] using hc
  have h2 : collapseRuns isSpaceTab ' ' false (trimChars m) = trimChars m := by
    apply collapseRuns_id
    · exact noRun_of_infix hsp hinf
    · intro c hc hpc
      exact hrep c (List.IsInfix.subset hinf hc) hpc
  show trimChars (collapseRuns isSpaceTab ' ' false
    (collapseRuns isNewline '\n' false (trimChars m))) = trimChars m
  rw [h1, h2, trimChars_idem]

theorem cleanChars_idem (l : List Char) : cleanChars (cleanChars l) = cleanChars l := by
  show cleanChars (trimChars (collapseRuns isSpaceTab ' ' false
    (collapseRuns isNewline '\n' false l)))
    = trimChars (collapseRuns isSpaceTab ' ' false (collapseRuns isNewline '\n' false l))
  apply cleanChars_of_collapsed
  · exact collapseRuns_noRun_other isSpaceTab isNewline ' ' (by decide) _ false
      (collapseRuns_noRun isNewline '\n' l false)
  · exact collapseRuns_noRun isSpaceTab ' ' _ false
  · intro c hc hpc
    exact collapseRuns_mem_rep isSpaceTab ' ' _ false c hc hpc

/-- Claim C4: the cleanFormatting text transform is idempotent: for every
input string, applying it twice yields the same string as applying it once. -/
theorem c4_cleanFormatting_idempotent (s : String) :
    cleanFormatting (cleanFormatting s) = cleanFormatting s := by
  show String.mk (cleanChars (cleanChars s.data)) = String.mk (cleanChars s.data)
  rw [cleanChars_idem]

/-- Claim C5: cleanFormatting collapses every run of two or more line breaks
to a single newline, collapses space/tab runs to a single space, then trims
both ends; concretely it maps "a\n\n\nb   c" to "a\nb c", and in general the
output has no two adjacent newlines, no two adjacent space/tab characters,
every space/tab character in it is a plain space, and trimming the output
again changes nothing. -/
theorem c5_cleanFormatting_steps :
    cleanFormatting "a\n\n\nb   c" = "a\nb c" ∧
    ∀ s : String,
      NoRun isNewline (cleanFormatting s).data ∧
      NoRun isSpaceTab (cleanFormatting s).data ∧
      (∀ c ∈ (cleanFormatting s).data, isSpaceTab c = true → c = ' ') ∧
      jsTrim (cleanFormatting s) = cleanFormatting s := by
  refine ⟨by decide, ?_⟩
  intro s
  have hinf := trimChars_infix
    (collapseRuns isSpaceTab ' ' false (collapseRuns isNewline '\n' false s.data))
  refine ⟨?_, ?_, ?_, ?_⟩
  · exact noRun_of_infix
      (collapseRuns_noRun_other isSpaceTab isNewline ' ' (by decide) _ false
        (collapseRuns_noRun isNewline '\n' s.data false)) hinf
  · exact noRun_of_infix (collapseRuns_noRun isSpaceTab ' ' _ false) hinf
  · intro c hc hpc
    exact collapseRuns_mem_rep isSpaceTab ' ' _ false c (List.IsInfix.subset hinf hc) hpc
  · show String.mk (trimChars (trimChars (collapseRuns isSpaceTab ' ' false
      (collapseRuns isNewline '\n' false s.data))))
      = String.mk (trimChars (collapseRuns isSpaceTab ' ' false
      (collapseRuns isNewline '\n' false s.data)))
    rw [trimChars_idem]

/-- Concrete instance of the C5 theorem: re-trimming a cleaned string is a
no-op. -/
theorem c5_witness :
    jsTrim (cleanFormatting " x ") = cleanFormatting " x " :=
  ((c5_cleanFormatting_steps.2 " x ").2.2.2)

/-- Claim C3: the urgency buckets are pairwise disjoint and their union is
exactly the sub-collection with a recognised urgency; an email with any other
urgency value appears in no bucket. -/
theorem c3_buckets_partition (st : AppState) (e : EmailItem) :
    (e ∈ urgentEmails st ↔ e ∈ st.emails ∧ e.urgency = "urgent") ∧
    (e ∈ normalEmails st ↔ e ∈ st.emails ∧ e.urgency = "normal") ∧
    (e ∈ lowEmails st ↔ e ∈ st.emails ∧ e.urgency = "low") ∧
    ¬(e ∈ urgentEmails st ∧ e ∈ normalEmails st) ∧
    ¬(e ∈ urgentEmails st ∧ e ∈ lowEmails st) ∧
    ¬(e ∈ normalEmails st ∧ e ∈ lowEmails st) ∧
    ((e ∈ urgentEmails st ∨ e ∈ normalEmails st ∨ e ∈ lowEmails st) ↔
      e ∈ st.emails ∧
        (e.urgency = "urgent" ∨ e.urgency = "normal" ∨ e.urgency = "low")) := by
  simp only [urgentEmails, normalEmails, lowEmails, List.mem_filter, beq_iff_eq]
  refine ⟨trivial, trivial, trivial, ?_, ?_, ?_, ?_⟩
  · rintro ⟨⟨-, h1⟩, ⟨-, h2⟩⟩
    rw [h1] at h2
    exact absurd h2 (by decide)
  · rintro ⟨⟨-, h1⟩, ⟨-, h2⟩⟩
    rw [h1] at h2
    exact absurd h2 (by decide)
  · rintro ⟨⟨-, h1⟩, ⟨-, h2⟩⟩
    rw [h1] at h2
    exact absurd h2 (by decide)
  · tauto

/-- Concrete instance of the C3 theorem at a one-email collection. -/
theorem c3_witness :
    sampleEmail ∈ urgentEmails { initialState with emails := [sampleEmail] } ↔
      sampleEmail ∈ ({ initialState with emails := [sampleEmail] } : AppState).emails ∧
        sampleEmail.urgency = "urgent" :=
  (c3_buckets_partition { initialState with emails := [sampleEmail] } sampleEmail).1

/-- Unfolding of the later analyzeEmails when the text equals the last
analyzed text: no clear request, straight to the shared core. -/
theorem later_analyze_same (st : AppState) (clearOk : Bool) (resp : Option AnalyzeData)
    (h : st.rawText = st.lastAnalyzedText) :
    Later.analyzeEmails st clearOk resp
      = analyzeCore { st with loading := true, error := none } resp := by
  unfold Later.analyzeEmails
  rw [if_neg (fun hne => hne h)]

/-- Unfolding of the later analyzeEmails when the text differs and the
preliminary clear succeeds. -/
theorem later_analyze_clearOk (st : AppState) (resp : Option AnalyzeData)
    (h : st.rawText ≠ st.lastAnalyzedText) :
    Later.analyzeEmails st true resp
      = ((analyzeCore { st with loading := true, error := none, sentLog := [], lastAnalyzedText := st.rawText } resp).1,
         Req.clearSent :: (analyzeCore { st with loading := true, error := none, sentLog := [], lastAnalyzedText := st.rawText } resp).2) := by
  unfold Later.analyzeEmails
  rw [if_pos h, if_pos rfl]

/-- Unfolding of the later analyzeEmails when the text differs and the
preliminary clear fails: the handler aborts after the clear request. -/
theorem later_analyze_clearFail (st : AppState) (resp : Option AnalyzeData)
    (h : st.rawText ≠ st.lastAnalyzedText) :
    Later.analyzeEmails st false resp
      = ({ st with loading := true, error := none }, [Req.clearSent]) := by
  unfold Later.analyzeEmails
  rw [if_pos h, if_neg (by simp)]

theorem analyzeCore_loading (st : AppState) (resp : Option AnalyzeData) :
    (analyzeCore st resp).1.loading = false := by
  cases resp <;> rfl

theorem analyzeCore_reqs (st : AppState) (resp : Option AnalyzeData) :
    (analyzeCore st resp).2 = [Req.analyze st.rawText] := by
  cases resp <;> rfl

theorem analyzeCore_last (st : AppState) (resp : Option AnalyzeData) :
    (analyzeCore st resp).1.lastAnalyzedText = st.lastAnalyzedText ∧
    (analyzeCore st resp).1.sentLog = [] := by
  cases resp <;> exact ⟨rfl, rfl⟩

/-- Claim C1 counterexample: starting from the initial state with text "a"
(different from the last analyzed text ""), a failing preliminary
outbox-clear request leaves the loading flag true when the handler
terminates, contradicting the claim that the flag is false in every
outcome. -/
theorem c1_counterexample :
    (Later.analyzeEmails { initialState with rawText := "a" } false
      (some { emails := [], follow_up := none })).1.loading = true := by
  rw [later_analyze_clearFail _ _ (by decide)]

/-- Claim C1 (amended): in the later variant's analyzeEmails the loading flag
is false whenever the handler completes its analyze attempt (analyze request
success or failure); but when the preliminary outbox-clear request fails
(the text differs from the last analyzed text and the clear rejects or
returns a non-OK status) the handler aborts by an uncaught exception and the
loading flag remains true. -/
theorem c1_loading_flag (st : AppState) (clearOk : Bool) (resp : Option AnalyzeData) :
    ((st.rawText = st.lastAnalyzedText ∨ clearOk = true) →
      (Later.analyzeEmails st clearOk resp).1.loading = false) ∧
    (st.rawText ≠ st.lastAnalyzedText → clearOk = false →
      (Later.analyzeEmails st clearOk resp).1.loading = true) := by
  constructor
  · rintro (h | h)
    · rw [later_analyze_same st clearOk resp h]
      exact analyzeCore_loading _ _
    · subst h
      by_cases hne : st.rawText = st.lastAnalyzedText
      · rw [later_analyze_same st true resp hne]
        exact analyzeCore_loading _ _
      · rw [later_analyze_clearOk st resp hne]
        exact analyzeCore_loading _ _
  · intro hne hck
    subst hck
    rw [later_analyze_clearFail st resp hne]

/-- Concrete instance of the C1 amended theorem: completing normally clears
the flag. -/
theorem c1_witness :
    (Later.analyzeEmails initialState true none).1.loading = false :=
  (c1_loading_flag initialState true none).1 (Or.inl rfl)

/-- Claim C2: the later analyzeEmails issues the preliminary outbox-clear
request exactly when the current raw text differs from the last analyzed
text by exact string equality; when equal, the trace is the analyze request
alone; when different and the clear succeeds, the clear precedes the analyze
request, the mirror is reset and the last-analyzed text is updated. -/
theorem c2_clear_request_iff (st : AppState) (clearOk : Bool) (resp : Option AnalyzeData) :
    ((Later.analyzeEmails st clearOk resp).2
      = if st.rawText = st.lastAnalyzedText then [Req.analyze st.rawText]
        else if clearOk then [Req.clearSent, Req.analyze st.rawText]
        else [Req.clearSent]) ∧
    (Req.clearSent ∈ (Later.analyzeEmails st clearOk resp).2 ↔
      st.rawText ≠ st.lastAnalyzedText) ∧
    (st.rawText ≠ st.lastAnalyzedText → clearOk = true →
      (Later.analyzeEmails st clearOk resp).1.lastAnalyzedText = st.rawText ∧
      (Later.analyzeEmails st clearOk resp).1.sentLog = []) := by
  by_cases h : st.rawText = st.lastAnalyzedText
  · rw [later_analyze_same st clearOk resp h, if_pos h, analyzeCore_reqs]
    exact ⟨rfl, by simp [h], fun hne => absurd h hne⟩
  · rw [if_neg h]
    cases clearOk with
    | true =>
      rw [later_analyze_clearOk st resp h, if_pos rfl, analyzeCore_reqs]
      refine ⟨rfl, by simp [h], fun _ _ => ?_⟩
      exact ⟨(analyzeCore_last _ resp).1, (analyzeCore_last _ resp).2⟩
    | false =>
      rw [later_analyze_clearFail st resp h, if_neg (by simp)]
      exact ⟨rfl, by simp [h], fun _ hck => Bool.noConfusion hck⟩

/-- Concrete instance of the C2 theorem: equal texts produce the bare analyze
request. -/
theorem c2_witness :
    (Later.analyzeEmails initialState true none).2 = [Req.analyze ""] := by
  have h := (c2_clear_request_iff initialState true none).1
  simpa [initialState] using h

/-- Claim C9: a failed analyze request (in the later variant, provided the
handler reaches the analyze request at all; in the earlier variant, provided
the non-empty guard passes) leaves the email collection unchanged, sets the
shared error slot to "Failed to analyze emails.", and clears the loading
flag. -/
theorem c9_analyze_failure (st : AppState) (clearOk : Bool) :
    ((st.rawText = st.lastAnalyzedText ∨ clearOk = true) →
      (Later.analyzeEmails st clearOk none).1.emails = st.emails ∧
      (Later.analyzeEmails st clearOk none).1.error = some "Failed to analyze emails." ∧
      (Later.analyzeEmails st clearOk none).1.loading = false) ∧
    (jsTrim st.rawText ≠ "" →
      (Early.analyzeEmails st none).1.emails = st.emails ∧
      (Early.analyzeEmails st none).1.error = some "Failed to analyze emails." ∧
      (Early.analyzeEmails st none).1.loading = false) := by
  constructor
  · rintro (h | h)
    · rw [later_analyze_same st clearOk none h]
      exact ⟨rfl, rfl, rfl⟩
    · subst h
      by_cases hne : st.rawText = st.lastAnalyzedText
      · rw [later_analyze_same st true none hne]
        exact ⟨rfl, rfl, rfl⟩
      · rw [later_analyze_clearOk st none hne]
        exact ⟨rfl, rfl, rfl⟩
  · intro h
    unfold Early.analyzeEmails
    rw [if_neg h]
    exact ⟨rfl, rfl, rfl⟩

/-- Concrete instance of the C9 theorem in both variants. -/
theorem c9_witness :
    (Later.analyzeEmails initialState true none).1.error
      = some "Failed to analyze emails." ∧
    (Early.analyzeEmails { initialState with rawText := "x" } none).1.error
      = some "Failed to analyze emails." := by
  refine ⟨((c9_analyze_failure initialState true).1 (Or.inl rfl)).2.1,
    ((c9_analyze_failure { initialState with rawText := "x" } true).2 ?_).2.1⟩
  decide

/-- Membership in the removal filter forces a different id. -/
theorem ne_of_mem_removal {ems : List EmailItem} {mid : Int} {e : EmailItem}
    (he : e ∈ ems.filter (fun x => !(x.id == mid))) : e.id ≠ mid := by
  have h := (List.mem_filter.1 he).2
  simpa using h

/-- Claim C6: after a successful approveAndSend, the approved email id is
absent from the collection and from all three buckets, the approve status is
the server message or the fixed fallback, the just-sent flag is set, and the
modal close is scheduled with the fixed 800-unit delay. -/
theorem c6_approve_success (st : AppState) (mid : Int) (msg : Option String)
    (sentResp : Option (List SentItem)) (h : st.modalEmailId = some mid) :
    (∀ e ∈ (Later.approveAndSend st (some msg) sentResp).1.emails, e.id ≠ mid) ∧
    (∀ e ∈ urgentEmails (Later.approveAndSend st (some msg) sentResp).1, e.id ≠ mid) ∧
    (∀ e ∈ normalEmails (Later.approveAndSend st (some msg) sentResp).1, e.id ≠ mid) ∧
    (∀ e ∈ lowEmails (Later.approveAndSend st (some msg) sentResp).1, e.id ≠ mid) ∧
    (Later.approveAndSend st (some msg) sentResp).1.approveStatus
      = some (msg.getD "Marked as sent (simulated).") ∧
    (Later.approveAndSend st (some msg) sentResp).1.sentJustNow = true ∧
    (Later.approveAndSend st (some msg) sentResp).2.2 = some 800 := by
  obtain ⟨rt, ems, ld, er, mo, asx, md, mei, ml, fu, sl, slo, sll, sjn, lat⟩ := st
  change mei = some mid at h
  subst h
  cases slo with
  | false =>
    refine ⟨?_, ?_, ?_, ?_, rfl, rfl, rfl⟩
    · intro e he
      exact ne_of_mem_removal he
    · intro e he
      exact ne_of_mem_removal (List.mem_filter.1 he).1
    · intro e he
      exact ne_of_mem_removal (List.mem_filter.1 he).1
    · intro e he
      exact ne_of_mem_removal (List.mem_filter.1 he).1
  | true =>
    cases sentResp with
    | none =>
      refine ⟨?_, ?_, ?_, ?_, rfl, rfl, rfl⟩
      · intro e he
        exact ne_of_mem_removal he
      · intro e he
        exact ne_of_mem_removal (List.mem_filter.1 he).1
      · intro e he
        exact ne_of_mem_removal (List.mem_filter.1 he).1
      · intro e he
        exact ne_of_mem_removal (List.mem_filter.1 he).1
    | some items =>
      refine ⟨?_, ?_, ?_, ?_, rfl, rfl, rfl⟩
      · intro e he
        exact ne_of_mem_removal he
      · intro e he
        exact ne_of_mem_removal (List.mem_filter.1 he).1
      · intro e he
        exact ne_of_mem_removal (List.mem_filter.1 he).1
      · intro e he
        exact ne_of_mem_removal (List.mem_filter.1 he).1

/-- Concrete instance of the C6 theorem. -/
theorem c6_witness :
    (Later.approveAndSend { initialState with modalEmailId := some 1 }
      (some none) none).1.sentJustNow = true ∧
    (Later.approveAndSend { initialState with modalEmailId := some 1 }
      (some none) none).2.2 = some 800 := by
  have h := c6_approve_success { initialState with modalEmailId := some 1 } 1 none none rfl
  exact ⟨h.2.2.2.2.2.1, h.2.2.2.2.2.2⟩

/-- Claim C7: when the approve request fails, the only state change is the
approve status becoming the fixed failure string; the collection, the modal,
and the just-sent flag are untouched, no modal close is scheduled, and the
approve button's disabled condition is unchanged, so a previously enabled
button stays enabled for retry. -/
theorem c7_approve_failure (st : AppState) (mid : Int) (sentResp : Option (List SentItem))
    (h : st.modalEmailId = some mid) :
    (Later.approveAndSend st none sentResp).1
      = { st with approveStatus := some "Failed to approve/send." } ∧
    (Later.approveAndSend st none sentResp).1.emails = st.emails ∧
    (Later.approveAndSend st none sentResp).1.modalOpen = st.modalOpen ∧
    (Later.approveAndSend st none sentResp).1.sentJustNow = st.sentJustNow ∧
    (Later.approveAndSend st none sentResp).2.2 = none ∧
    approveDisabled (Later.approveAndSend st none sentResp).1 = approveDisabled st := by
  obtain ⟨rt, ems, ld, er, mo, asx, md, mei, ml, fu, sl, slo, sll, sjn, lat⟩ := st
  change mei = some mid at h
  subst h
  exact ⟨rfl, rfl, rfl, rfl, rfl, rfl⟩

/-- Concrete instance of the C7 theorem. -/
theorem c7_witness :
    (Later.approveAndSend { initialState with modalEmailId := some 1 } none none).1
      = { { initialState with modalEmailId := some 1 } with
          approveStatus := some "Failed to approve/send." } :=
  (c7_approve_failure { initialState with modalEmailId := some 1 } 1 none rfl).1

/-- Claim C10: invoking approveAndSend with no recorded target email id
returns immediately: no request is issued, no timer is scheduled, and the
state is unchanged. -/
theorem c10_approve_no_target (st : AppState) (resp : Option (Option String))
    (sentResp : Option (List SentItem)) (h : st.modalEmailId = none) :
    Later.approveAndSend st resp sentResp = (st, [], none) := by
  obtain ⟨rt, ems, ld, er, mo, asx, md, mei, ml, fu, sl, slo, sll, sjn, lat⟩ := st
  change mei = none at h
  subst h
  rfl

/-- Concrete instance of the C10 theorem. -/
theorem c10_witness :
    Later.approveAndSend initialState none none = (initialState, [], none) :=
  c10_approve_no_target initialState none none rfl

/-- Claim C8 counterexample: a successful suggestion response whose draft
field is present but empty does not reach the draft slot verbatim; the
message is used instead, refuting the claim that a present draft is always
copied verbatim. -/
theorem c8_counterexample :
    (suggestReply initialState sampleEmail
      (some { draft := some "", message := some "Will follow up." })).1.modalDraft
      = "Will follow up." ∧
    ({ draft := some "", message := some "Will follow up." } : SuggestData).draft ≠ none ∧
    ("Will follow up." : String) ≠ "" := by
  refine ⟨rfl, by simp, by decide⟩

/-- Claim C8 (amended): on success the draft field is set to the response's
draft verbatim when the draft is present and non-empty; a missing or empty
draft falls back to the response's message when present, else to "No draft
available."; on failure the fixed failure string is placed into the draft
field itself while the shared error slot stays cleared; and the modal
loading flag is false afterwards in every case. -/
theorem c8_suggest_reply (st : AppState) (email : EmailItem) (resp : Option SuggestData) :
    (suggestReply st email resp).1.modalLoading = false ∧
    (resp = none →
      (suggestReply st email resp).1.modalDraft = "Failed to get reply suggestion." ∧
      (suggestReply st email resp).1.error = none) ∧
    (∀ t msg, resp = some ⟨some t, msg⟩ → t ≠ "" →
      (suggestReply st email resp).1.modalDraft = t) ∧
    (∀ msg, resp = some ⟨some "", msg⟩ →
      (suggestReply st email resp).1.modalDraft = msg.getD "No draft available.") ∧
    (∀ msg, resp = some ⟨none, msg⟩ →
      (suggestReply st email resp).1.modalDraft = msg.getD "No draft available.") := by
  cases resp with
  | none =>
    refine ⟨rfl, fun _ => ⟨rfl, rfl⟩, ?_, ?_, ?_⟩
    · intro t msg hh
      cases hh
    · intro msg hh
      cases hh
    · intro msg hh
      cases hh
  | some d =>
    obtain ⟨dd, mm⟩ := d
    refine ⟨?_, ?_, ?_, ?_, ?_⟩
    · cases dd <;> rfl
    · intro hh
      exact absurd hh (by simp)
    · intro t msg hh hne
      injection hh with h1
      injection h1 with h2 h3
      subst h2
      subst h3
      simp [suggestReply, hne]
    · intro msg hh
      injection hh with h1
      injection h1 with h2 h3
      subst h2
      subst h3
      simp [suggestReply]
    · intro msg hh
      injection hh with h1
      injection h1 with h2 h3
      subst h2
      subst h3
      simp [suggestReply]

/-- Concrete instance of the C8 amended theorem: a non-empty draft is copied
verbatim; a failed request writes the failure string into the draft field. -/
theorem c8_witness :
    (suggestReply initialState sampleEmail (some ⟨some "Dear", none⟩)).1.modalDraft
      = "Dear" ∧
    (suggestReply initialState sampleEmail none).1.modalDraft
      = "Failed to get reply suggestion." := by
  refine ⟨?_, ?_⟩
  · exact (c8_suggest_reply initialState sampleEmail (some ⟨some "Dear", none⟩)).2.2.1
      "Dear" none rfl (by decide)
  · exact ((c8_suggest_reply initialState sampleEmail none).2.1 rfl).1

end EmailAssistant
